import Mathlib

/-!
Verification of the JPFOG-blurry video redaction tool (src/blurry).

Python strings are modelled as `List Char` (a Python `str` is a sequence of
code points).  The data model mirrors the widgets of
`MainWindow.__init__` (src/blurry/main_window.py): each combo box becomes an
enumerated type carrying the exact item texts, each spin box a `Nat` whose
range is recorded in `ValidFields`.  The filename builder, the queue
operations, the export-path derivation and the batch loop of
`MainWindow.blur_videos` are translated function by function below.
-/

/-- Python strings, modelled as lists of characters. -/
abbrev Str := List Char

/-! ## String primitives used by the source

`str.split(sep)` and `str.replace(old, new)` are the only two non-trivial
string operations `main_window.py` uses (lines 495-496). -/

/-- Python's `str.split(sep)` for a single-character separator: splits on
every occurrence of `sep`, keeping empty parts (`"a__b".split("_") ==
["a", "", "b"]`, `"".split("_") == [""]`). -/
def split_on (sep : Char) : Str → List Str
  | [] => [[]]
  | c :: rest =>
    if c = sep then [] :: split_on sep rest
    else
      match split_on sep rest with
      | [] => [[c]]
      | t :: ts => (c :: t) :: ts

/-- Fuel-driven worker for `pyReplace`; the fuel makes the recursion
structural so that concrete instances reduce in the kernel. -/
def pyReplaceAux (pat rep : Str) : Nat → Str → Str
  | _, [] => []
  | 0, s => s
  | fuel + 1, x :: xs =>
    if pat ≠ [] ∧ pat.isPrefixOf (x :: xs) = true then
      rep ++ pyReplaceAux pat rep fuel ((x :: xs).drop pat.length)
    else
      x :: pyReplaceAux pat rep fuel xs

/-- Python's `s.replace(pat, rep)`: replaces every non-overlapping
occurrence of `pat`, scanning left to right.  (The program only ever calls
`replace` with the non-empty literals `"blur"` and `"unblur"`; for an empty
`pat` this model returns `s` unchanged.) -/
def pyReplace (s pat rep : Str) : Str := pyReplaceAux pat rep s.length s

/-- Number of positions of `s` at which `pat` occurs (occurrences may
overlap; the patterns used below cannot overlap themselves). -/
def countOccur (pat : Str) : Str → Nat
  | [] => if pat.isPrefixOf [] then 1 else 0
  | x :: xs => (if pat.isPrefixOf (x :: xs) then 1 else 0) + countOccur pat xs

/-- Whether `pat` occurs somewhere in the string. -/
def containsSub (pat : Str) : Str → Bool
  | [] => pat.isPrefixOf []
  | x :: xs => pat.isPrefixOf (x :: xs) || containsSub pat xs

/-! ## Data model: the filename-builder fields

One constructor per combo-box item (`MainWindow.__init__`,
src/blurry/main_window.py lines 120-166). -/

/-- Items of `_site_id_combobox`: `["C1", ..., "C7", "Rochester"]`. -/
inductive SiteId
  | c1 | c2 | c3 | c4 | c5 | c6 | c7 | rochester
deriving DecidableEq

def site_text : SiteId → Str
  | .c1 => ['C', '1']
  | .c2 => ['C', '2']
  | .c3 => ['C', '3']
  | .c4 => ['C', '4']
  | .c5 => ['C', '5']
  | .c6 => ['C', '6']
  | .c7 => ['C', '7']
  | .rochester => ['R', 'o', 'c', 'h', 'e', 's', 't', 'e', 'r']

/-- Items of `_freezer_status_combobox`: `["FR", "NF", "CO"]`. -/
inductive FreezerStatus
  | fr | nf | co
deriving DecidableEq

def freezer_text : FreezerStatus → Str
  | .fr => ['F', 'R']
  | .nf => ['N', 'F']
  | .co => ['C', 'O']

/-- Items of `_session_id_combobox`: `["ses01", "ses02"]`. -/
inductive SessionId
  | ses01 | ses02
deriving DecidableEq

def session_text : SessionId → Str
  | .ses01 => ['s', 'e', 's', '0', '1']
  | .ses02 => ['s', 'e', 's', '0', '2']

/-- Items of `_medication_status_combobox`: `["on", "off"]`. -/
inductive MedicationStatus
  | on | off
deriving DecidableEq

def medication_text : MedicationStatus → Str
  | .on => ['o', 'n']
  | .off => ['o', 'f', 'f']

/-- Items of `_trial_id_combobox`. -/
inductive TrialId
  | stwalk | dtwalk | stcarr | stturn | dtturn | stshuf | stagil | stdoor | vostop | custop
deriving DecidableEq

def trial_text : TrialId → Str
  | .stwalk => ['s', 't', 'w', 'a', 'l', 'k']
  | .dtwalk => ['d', 't', 'w', 'a', 'l', 'k']
  | .stcarr => ['s', 't', 'c', 'a', 'r', 'r']
  | .stturn => ['s', 't', 't', 'u', 'r', 'n']
  | .dtturn => ['d', 't', 't', 'u', 'r', 'n']
  | .stshuf => ['s', 't', 's', 'h', 'u', 'f']
  | .stagil => ['s', 't', 'a', 'g', 'i', 'l']
  | .stdoor => ['s', 't', 'd', 'o', 'o', 'r']
  | .vostop => ['v', 'o', 's', 't', 'o', 'p']
  | .custop => ['c', 'u', 's', 't', 'o', 'p']

/-- Items of `_video_plane_combobox`: `["front", "sagit"]`. -/
inductive VideoPlane
  | front | sagit
deriving DecidableEq

def plane_text : VideoPlane → Str
  | .front => ['f', 'r', 'o', 'n', 't']
  | .sagit => ['s', 'a', 'g', 'i', 't']

/-- The state of the filename-builder widgets read by
`MainWindow._build_filename`. -/
structure FilenameFields where
  site_id : SiteId
  subject_id : Nat
  freezer_status : FreezerStatus
  session_id : SessionId
  medication_status : MedicationStatus
  trial_id : TrialId
  retry : Nat
  video_plane : VideoPlane
deriving DecidableEq

/-- The spin-box ranges: `_subject_id_spinbox.setRange(0, 999)` and
`_retry_spinbox.setRange(0, 999)`. -/
def ValidFields (f : FilenameFields) : Prop :=
  f.subject_id ≤ 999 ∧ f.retry ≤ 999

instance : DecidablePred ValidFields := fun f => by unfold ValidFields; infer_instance

/-! ## The filename builder (`MainWindow._build_filename`, lines 342-366) -/

/-- Python's `f"{n}"` (decimal rendering), written out for the spin-box
range 0-999; values above 999 cannot occur in the program. -/
def nat_str (n : Nat) : Str :=
  if n < 10 then [Nat.digitChar n]
  else if n < 100 then [Nat.digitChar (n / 10), Nat.digitChar (n % 10)]
  else [Nat.digitChar (n / 100), Nat.digitChar (n / 10 % 10), Nat.digitChar (n % 10)]

/-- Python's `f"{n:03d}"` (zero-padded to width 3), written out for the
spin-box range 0-999. -/
def pad3 (n : Nat) : Str :=
  if n < 10 then ['0', '0', Nat.digitChar n]
  else if n < 100 then ['0', Nat.digitChar (n / 10), Nat.digitChar (n % 10)]
  else [Nat.digitChar (n / 100), Nat.digitChar (n / 10 % 10), Nat.digitChar (n % 10)]

/-- `"sub"` literal of the f-string. -/
def sub_t : Str := ['s', 'u', 'b']

/-- `"-retr"` literal of the f-string (retry branch). -/
def retr_t : Str := ['-', 'r', 'e', 't', 'r']

/-- `"_blur.mp4"` tail of both f-strings. -/
def blur_tail : Str := ['_', 'b', 'l', 'u', 'r', '.', 'm', 'p', '4']

/-- `"blur"` (the fixed redaction token, also the first argument of
`replace` at line 495). -/
def blur_t : Str := ['b', 'l', 'u', 'r']

/-- `"unblur"` (the second argument of `replace` at line 495). -/
def unblur_t : Str := ['u', 'n', 'b', 'l', 'u', 'r']

/-- Lines 343-347: `site_id = ""` for `"Rochester"`, else `site_id + "_"`. -/
def site_token (s : SiteId) : Str :=
  if s = SiteId.rochester then [] else site_text s ++ ['_']

/-- `MainWindow._build_filename` (lines 342-366): renders the two f-strings
(without / with the `-retr{retry}` part). -/
def build_filename (f : FilenameFields) : Str :=
  if f.retry = 0 then
    site_token f.site_id ++ sub_t ++ pad3 f.subject_id ++ ['_'] ++
      freezer_text f.freezer_status ++ ['_'] ++ session_text f.session_id ++ ['_'] ++
      medication_text f.medication_status ++ ['_'] ++ trial_text f.trial_id ++ ['_'] ++
      plane_text f.video_plane ++ blur_tail
  else
    site_token f.site_id ++ sub_t ++ pad3 f.subject_id ++ ['_'] ++
      freezer_text f.freezer_status ++ ['_'] ++ session_text f.session_id ++ ['_'] ++
      medication_text f.medication_status ++ ['_'] ++ trial_text f.trial_id ++ retr_t ++
      nat_str f.retry ++ ['_'] ++ plane_text f.video_plane ++ blur_tail

/-! ## The job queue (`_queue` table widget)

A row of the `QTableWidget` holds the original path (column 0), the new
name (column 1) and a Remove button whose dynamic `"Row"` property records
the row index it operates on (lines 325-339). -/

/-- One row of the queue table. -/
structure QueueRow where
  source : Str
  target : Str
  button_row : Nat
deriving DecidableEq

/-- `self._queue.item(row, col).text()` for the two text columns used by
`_verify_unique_filename` (col 0 = original file, col 1 = new name). -/
def item_text (r : QueueRow) (col : Nat) : Str :=
  if col = 0 then r.source else r.target

/-- `MainWindow._verify_unique_filename` (lines 368-374): `False` as soon
as some row's text in `col` equals `prop`, else `True`. -/
def verify_unique_filename (queue : List QueueRow) (prop : Str) (col : Nat) : Bool :=
  queue.all fun r => item_text r col != prop

/-- How a call to `MainWindow.enqueue` (lines 296-340) ends: the silent
early return when no video is loaded (line 300), the two message-box
rejections (lines 302-311 and 314-323), or the append of a new row. -/
inductive EnqueueOutcome
  | no_source | duplicate_source | duplicate_name | added
deriving DecidableEq

/-- `MainWindow.enqueue`: `local_path` is
`self._media_player.source().toLocalFile()`; on success the new row is
appended at index `rowCount` and its button's `"Row"` property set to that
index. -/
def enqueue (queue : List QueueRow) (local_path : Str) (fields : FilenameFields) :
    EnqueueOutcome × List QueueRow :=
  if local_path = [] then (.no_source, queue)
  else if verify_unique_filename queue local_path 0 = false then (.duplicate_source, queue)
  else
    let new_filename := build_filename fields
    if verify_unique_filename queue new_filename 1 = false then (.duplicate_name, queue)
    else (.added, queue ++ [⟨local_path, new_filename, queue.length⟩])

/-- `MainWindow._update_row_property` (lines 384-387): re-points every
remaining Remove button at its current row index.  The first argument is
the index of the head row (`0` at the top-level call). -/
def update_row_property : Nat → List QueueRow → List QueueRow
  | _, [] => []
  | i, r :: rs => { r with button_row := i } :: update_row_property (i + 1) rs

/-- `MainWindow.remove_row` (lines 376-382): deletes the sender's row
(`QTableWidget.removeRow` ignores an out-of-range index) and renumbers the
remaining buttons. -/
def remove_row (queue : List QueueRow) (sender_row : Nat) : List QueueRow :=
  update_row_property 0 (queue.eraseIdx sender_row)

/-! ## Filesystem model for the batch run

`blur_videos` touches the filesystem through `os.path.exists`,
`os.makedirs`, `shutil.copy2` and the external `deface` subprocess.  Paths
are full path strings; `os.path.join` is modelled with the `'/'`
separator.  A file's value models its bytes together with its metadata
(timestamps): `copy2` copies both, which is exactly what the value-copy
below does. -/

/-- Contents (bytes + metadata) of a file: either an original source video
or the output `deface` produced from one. -/
inductive FileData
  | original (id : Nat)
  | defaced (src : FileData)
deriving DecidableEq

/-- Directories that exist plus a map from file paths to contents (later
entries shadowed by earlier ones; `write_file` prepends). -/
structure Filesystem where
  dirs : List Str
  files : List (Str × FileData)
deriving DecidableEq

/-- `os.path.join(a, b)` (POSIX separator). -/
def path_join (a b : Str) : Str := a ++ ['/'] ++ b

/-- `os.path.exists`: true for an existing directory or file. -/
def path_exists (fs : Filesystem) (p : Str) : Bool :=
  fs.dirs.contains p || (fs.files.lookup p).isSome

/-- `os.makedirs(p)` (the intermediate parents it also creates play no
role in any claim and are not tracked). -/
def makedirs (fs : Filesystem) (p : Str) : Filesystem :=
  { fs with dirs := p :: fs.dirs }

/-- Overwrite/create the file at `p`. -/
def write_file (fs : Filesystem) (p : Str) (d : FileData) : Filesystem :=
  { fs with files := (p, d) :: fs.files }

/-- `"source_data"`. -/
def source_data_t : Str := ['s', 'o', 'u', 'r', 'c', 'e', '_', 'd', 'a', 't', 'a']

/-- `"derived_data"`. -/
def derived_data_t : Str := ['d', 'e', 'r', 'i', 'v', 'e', 'd', '_', 'd', 'a', 't', 'a']

/-- `MainWindow._verify_export_directory` (lines 485-490). -/
def verify_export_directory (fs : Filesystem) (dir : Str) : Bool :=
  path_exists fs (path_join dir source_data_t) && path_exists fs (path_join dir derived_data_t)

/-- Exceptions that can escape the per-row body of the `blur_videos` loop:
`tokens[i]` out of range (`IndexError`) or `shutil.copy2` on a missing
source (`FileNotFoundError`). -/
inductive RunError
  | index_error
  | file_not_found (p : Str)
deriving DecidableEq

/-- Lines 496-499 of `_get_export_path`: split the stem of the blurred
filename on `"_"` and rebuild the three folder names
(`subject_folder`, `session_folder`, `onoff_folder`); `none` models the
`IndexError` Python raises when there are fewer than five tokens. -/
def export_folders (blurred_filename : Str) : Option (Str × Str × Str) :=
  let tokens := split_on '_' ((split_on '.' blurred_filename).headD [])
  if 5 ≤ tokens.length then
    some (tokens.getD 0 [] ++ ['_'] ++ tokens.getD 1 [] ++ ['_'] ++ tokens.getD 2 [],
      tokens.getD 3 [], tokens.getD 4 [])
  else none

/-- `MainWindow._get_export_path` (lines 492-514): derives the unblurred
filename by `replace("blur", "unblur")`, rebuilds the folder names from the
blurred filename, creates the two leaf directories when missing, and
returns the two full output paths. -/
def get_export_path (fs : Filesystem) (parent_dir : Str) (blurred_filename : Str) :
    Except RunError (Filesystem × Str × Str) :=
  let unblurred_filename := pyReplace blurred_filename blur_t unblur_t
  match export_folders blurred_filename with
  | none => .error .index_error
  | some (subject_folder, session_folder, onoff_folder) =>
    let unblurred_dir :=
      path_join (path_join (path_join (path_join parent_dir source_data_t) subject_folder)
        session_folder) onoff_folder
    let fs1 := if path_exists fs unblurred_dir then fs else makedirs fs unblurred_dir
    let blurred_dir :=
      path_join (path_join (path_join (path_join parent_dir derived_data_t) subject_folder)
        session_folder) onoff_folder
    let fs2 := if path_exists fs1 blurred_dir then fs1 else makedirs fs1 blurred_dir
    .ok (fs2, path_join unblurred_dir unblurred_filename,
      path_join blurred_dir blurred_filename)

/-- Observable events of a batch run; each records the row index the loop
was working on when it happened. -/
inductive Event
  | video_progress (row : Nat)
  | copy_file (row : Nat) (src dst : Str)
  | run_deface (row : Nat) (src dst : Str)
deriving DecidableEq

/-- The row a batch event belongs to. -/
def event_row : Event → Nat
  | .video_progress r => r
  | .copy_file r _ _ => r
  | .run_deface r _ _ => r

/-- The body of the `for row in range(num_rows)` loop of `blur_videos`
(lines 435-472) for one row: emit the progress signal, derive the export
paths (creating directories), copy the source to the unblurred path when
that path does not exist yet, then run `deface` which writes the blurred
path (a missing source makes `deface` exit non-zero, which is only
logged). -/
def process_entry (fs : Filesystem) (row : Nat) (export_dir : Str) (e : QueueRow) :
    Filesystem × List Event × Option RunError :=
  let evs0 := [Event.video_progress row]
  match get_export_path fs export_dir e.target with
  | .error err => (fs, evs0, some err)
  | .ok (fs1, unblurred_path, blurred_path) =>
    let copied : Filesystem × List Event × Option RunError :=
      if path_exists fs1 unblurred_path then (fs1, evs0, none)
      else
        match fs1.files.lookup e.source with
        | some d =>
          (write_file fs1 unblurred_path d,
            evs0 ++ [Event.copy_file row e.source unblurred_path], none)
        | none => (fs1, evs0, some (.file_not_found e.source))
    match copied with
    | (fs2, evs, none) =>
      let fs3 := match fs2.files.lookup e.source with
        | some d => write_file fs2 blurred_path (.defaced d)
        | none => fs2
      (fs3, evs ++ [Event.run_deface row e.source blurred_path], none)
    | failed => failed

/-- The `for` loop of `blur_videos`: before each row the cancellation flag
is read (`flag_at row` is its value at that check; the
`progress_dialog.rejected` slot can set it at any pump of the event loop);
a `break` on a set flag, an uncaught exception aborts the batch. -/
def run_rows (export_dir : Str) (flag_at : Nat → Bool) :
    Filesystem → Nat → List QueueRow → Filesystem × List Event × Option RunError
  | fs, _, [] => (fs, [], none)
  | fs, row, e :: rest =>
    if flag_at row then (fs, [], none)
    else
      match process_entry fs row export_dir e with
      | (fs1, evs, none) =>
        let r := run_rows export_dir flag_at fs1 (row + 1) rest
        (r.1, evs ++ r.2.1, r.2.2)
      | (fs1, evs, some err) => (fs1, evs, some err)

/-- How `MainWindow.blur_videos` (lines 389-474) ends: the two silent
early returns (empty queue, export dialog cancelled), the message-box
abort on a bad export layout, or an actual run of the loop. -/
inductive BatchOutcome
  | empty_queue | dialog_cancelled | invalid_layout | ran
deriving DecidableEq

/-- Result of `blur_videos`: outcome, final filesystem, events of the run
in order, and the exception that aborted the loop, if any. -/
structure BatchResult where
  outcome : BatchOutcome
  fs : Filesystem
  events : List Event
  error : Option RunError
deriving DecidableEq

/-- `MainWindow.blur_videos`: `export_dir_choice` is the directory-dialog
result (`none` = dialog cancelled, which Python reports as `""`).  The
threshold spin-box value only parameterizes the external `deface` call and
is not modelled. -/
def blur_videos (fs : Filesystem) (queue : List QueueRow) (export_dir_choice : Option Str)
    (flag_at : Nat → Bool) : BatchResult :=
  if queue.length = 0 then ⟨.empty_queue, fs, [], none⟩
  else
    match export_dir_choice with
    | none => ⟨.dialog_cancelled, fs, [], none⟩
    | some dir =>
      if verify_export_directory fs dir = false then ⟨.invalid_layout, fs, [], none⟩
      else
        let r := run_rows dir flag_at fs 0 queue
        ⟨.ran, r.1, r.2.1, r.2.2⟩

/-! ## Derived notions used by the specification statements -/

/-- `"blur.mp4"`: what follows the final `"_"` of every built filename
(`blur_tail` is `['_'] ++ blur_rest`). -/
def blur_rest : Str := ['b', 'l', 'u', 'r', '.', 'm', 'p', '4']

/-- A path lying inside the `source_data` tree of export root `dir` — the
shape of every untouched-copy output path. -/
def under_source_data (dir p : Str) : Prop :=
  ∃ rest, p = path_join dir source_data_t ++ rest

/-- `build_filename` with the final `"blur.mp4"` segment abstracted: every
built filename is `assemble f blur_rest`, and `replace` only ever rewrites
inside that final segment.  Used to state the substitution lemmas. -/
def assemble (f : FilenameFields) (w : Str) : Str :=
  site_token f.site_id ++ sub_t ++ pad3 f.subject_id ++ ['_'] ++
    freezer_text f.freezer_status ++ ['_'] ++ session_text f.session_id ++ ['_'] ++
    medication_text f.medication_status ++ ['_'] ++
    (if f.retry = 0 then trial_text f.trial_id
     else trial_text f.trial_id ++ retr_t ++ nat_str f.retry) ++ ['_'] ++
    plane_text f.video_plane ++ ['_'] ++ w

/-- The field-derived tokens of a built filename, in order, without the
final `"blur"` token: the optional site token, the subject token, and the
freezer/session/medication/trial(+retry)/plane tokens. -/
def field_tokens (f : FilenameFields) : List Str :=
  (if f.site_id = SiteId.rochester then [] else [site_text f.site_id]) ++
    [sub_t ++ pad3 f.subject_id, freezer_text f.freezer_status, session_text f.session_id,
      medication_text f.medication_status,
      (if f.retry = 0 then trial_text f.trial_id
       else trial_text f.trial_id ++ retr_t ++ nat_str f.retry),
      plane_text f.video_plane]

/-! ## Queue lemmas and claims about `enqueue` / `remove_row` -/

theorem verify_unique_eq_true_iff (queue : List QueueRow) (prop : Str) (col : Nat) :
    verify_unique_filename queue prop col = true ↔ ∀ r ∈ queue, item_text r col ≠ prop := by
  simp [verify_unique_filename, List.all_eq_true, bne_iff_ne]

/-- C10: calling `enqueue` with no loaded video (empty local path) is a
silent no-op: it takes the early-return branch (no message box), adds no
row, and leaves the queue unchanged. -/
theorem c10_enqueue_without_source_is_noop (queue : List QueueRow) (fields : FilenameFields) :
    enqueue queue [] fields = (EnqueueOutcome.no_source, queue) := by
  simp [enqueue]

/-- C2: an enqueue whose source path or whose built target filename
collides with an existing row is rejected — the outcome reported to the
caller is not `added`, and the queue is returned unchanged. -/
theorem c2_duplicate_enqueue_rejected (queue : List QueueRow) (local_path : Str)
    (fields : FilenameFields)
    (hdup : (∃ r ∈ queue, r.source = local_path) ∨
      (∃ r ∈ queue, r.target = build_filename fields)) :
    (enqueue queue local_path fields).1 ≠ EnqueueOutcome.added ∧
      (enqueue queue local_path fields).2 = queue := by
  by_cases h0 : local_path = []
  · simp [enqueue, h0]
  · by_cases h1 : verify_unique_filename queue local_path 0 = false
    · simp [enqueue, h0, h1]
    · by_cases h2 : verify_unique_filename queue (build_filename fields) 1 = false
      · simp [enqueue, h0, h1, h2]
      · exfalso
        have h1t : verify_unique_filename queue local_path 0 = true := by
          revert h1; cases verify_unique_filename queue local_path 0 <;> simp
        have h2t : verify_unique_filename queue (build_filename fields) 1 = true := by
          revert h2; cases verify_unique_filename queue (build_filename fields) 1 <;> simp
        rcases hdup with ⟨r, hr, hsrc⟩ | ⟨r, hr, htgt⟩
        · exact (verify_unique_eq_true_iff queue local_path 0).mp h1t r hr
            (by simpa [item_text] using hsrc)
        · exact (verify_unique_eq_true_iff queue (build_filename fields) 1).mp h2t r hr
            (by simpa [item_text] using htgt)

/-- Witness for C2 at a one-row queue whose source path collides. -/
theorem c2_duplicate_enqueue_rejected_witness :
    ((∃ r ∈ [(⟨['a'], ['b'], 0⟩ : QueueRow)], r.source = ['a']) ∨
      (∃ r ∈ [(⟨['a'], ['b'], 0⟩ : QueueRow)],
        r.target = build_filename ⟨.c1, 1, .fr, .ses01, .on, .stwalk, 0, .front⟩)) ∧
    ((enqueue [⟨['a'], ['b'], 0⟩] ['a'] ⟨.c1, 1, .fr, .ses01, .on, .stwalk, 0, .front⟩).1 ≠
        EnqueueOutcome.added ∧
      (enqueue [⟨['a'], ['b'], 0⟩] ['a'] ⟨.c1, 1, .fr, .ses01, .on, .stwalk, 0, .front⟩).2 =
        [⟨['a'], ['b'], 0⟩]) :=
  ⟨Or.inl (by decide),
    c2_duplicate_enqueue_rejected [⟨['a'], ['b'], 0⟩] ['a'] _ (Or.inl (by decide))⟩

theorem update_row_property_data : ∀ (n : Nat) (l : List QueueRow),
    (update_row_property n l).map (fun r => (r.source, r.target)) =
      l.map (fun r => (r.source, r.target))
  | _, [] => rfl
  | n, r :: rs => by simp [update_row_property, update_row_property_data (n + 1) rs]

theorem update_row_property_getD : ∀ (l : List QueueRow) (n j : Nat), j < l.length →
    ((update_row_property n l).getD j ⟨[], [], 0⟩).button_row = n + j := by
  intro l
  induction l with
  | nil => intro n j h; simp at h
  | cons r rs ih =>
    intro n j h
    cases j with
    | zero => simp [update_row_property]
    | succ j =>
      have := ih (n + 1) j (by simpa using Nat.lt_of_succ_lt_succ h)
      simpa [update_row_property, Nat.add_assoc, Nat.add_comm, Nat.add_left_comm] using this

theorem update_row_property_length : ∀ (n : Nat) (l : List QueueRow),
    (update_row_property n l).length = l.length
  | _, [] => rfl
  | n, r :: rs => by simp [update_row_property, update_row_property_length (n + 1) rs]

/-- C9 counterexample: removing row 0 from a two-row queue renumbers the
surviving row's identity — the row with source `"c"` carried button
property `1` before the removal and carries `0` after it. -/
theorem c9_removal_renumbers_counterexample :
    ((remove_row [⟨['a'], ['b'], 0⟩, ⟨['c'], ['d'], 1⟩] 0).headD ⟨[], [], 0⟩).source =
        (⟨['c'], ['d'], 1⟩ : QueueRow).source ∧
      ((remove_row [⟨['a'], ['b'], 0⟩, ⟨['c'], ['d'], 1⟩] 0).headD ⟨[], [], 0⟩).button_row ≠
        (⟨['c'], ['d'], 1⟩ : QueueRow).button_row := by
  decide

/-- C9 (amended): removal deletes exactly the indexed row, preserving every
other row's source path and target filename and their relative order, but
entries are identified by position — `remove_row` renumbers every remaining
button's `"Row"` property to its new index. -/
theorem c9_remove_row_preserves_data_and_renumbers (queue : List QueueRow) (i : Nat) :
    (remove_row queue i).map (fun r => (r.source, r.target)) =
      (queue.eraseIdx i).map (fun r => (r.source, r.target)) ∧
    ∀ j, j < (remove_row queue i).length →
      ((remove_row queue i).getD j ⟨[], [], 0⟩).button_row = j := by
  constructor
  · exact update_row_property_data 0 (queue.eraseIdx i)
  · intro j hj
    have hj' : j < (queue.eraseIdx i).length := by
      simpa [remove_row, update_row_property_length] using hj
    simpa using update_row_property_getD (queue.eraseIdx i) 0 j hj'

/-- Witness for the amended C9 at a concrete two-row queue. -/
theorem c9_remove_row_preserves_data_and_renumbers_witness :
    (remove_row [⟨['a'], ['b'], 0⟩, ⟨['c'], ['d'], 1⟩] 0).map (fun r => (r.source, r.target)) =
      (([⟨['a'], ['b'], 0⟩, ⟨['c'], ['d'], 1⟩] : List QueueRow).eraseIdx 0).map
        (fun r => (r.source, r.target)) ∧
    ((remove_row [⟨['a'], ['b'], 0⟩, ⟨['c'], ['d'], 1⟩] 0).getD 0 ⟨[], [], 0⟩).button_row = 0 :=
  ⟨(c9_remove_row_preserves_data_and_renumbers [⟨['a'], ['b'], 0⟩, ⟨['c'], ['d'], 1⟩] 0).1,
    (c9_remove_row_preserves_data_and_renumbers [⟨['a'], ['b'], 0⟩, ⟨['c'], ['d'], 1⟩] 0).2 0
      (by decide)⟩

/-! ## Claims about the batch run: layout validation and cancellation -/

/-- C3: with a non-empty queue and an export root that fails the
`source_data`/`derived_data` check, `blur_videos` aborts before any job:
the filesystem is untouched, no event is emitted, and the user-facing
invalid-layout outcome is reported. -/
theorem c3_invalid_layout_aborts (fs : Filesystem) (queue : List QueueRow) (dir : Str)
    (flag_at : Nat → Bool) (hq : queue ≠ [])
    (hv : verify_export_directory fs dir = false) :
    blur_videos fs queue (some dir) flag_at =
      ⟨BatchOutcome.invalid_layout, fs, [], none⟩ := by
  have h0 : ¬ queue.length = 0 := by simpa [List.length_eq_zero] using hq
  simp [blur_videos, h0, hv]

/-- Witness for C3: empty filesystem, non-empty queue, export root `"e"`. -/
theorem c3_invalid_layout_aborts_witness :
    ([(⟨['a'], ['b'], 0⟩ : QueueRow)] ≠ []) ∧
    verify_export_directory ⟨[], []⟩ ['e'] = false ∧
    blur_videos ⟨[], []⟩ [⟨['a'], ['b'], 0⟩] (some ['e']) (fun _ => false) =
      ⟨BatchOutcome.invalid_layout, ⟨[], []⟩, [], none⟩ :=
  ⟨by decide, by decide,
    c3_invalid_layout_aborts ⟨[], []⟩ [⟨['a'], ['b'], 0⟩] ['e'] (fun _ => false)
      (by decide) (by decide)⟩

theorem process_entry_event_rows (fs : Filesystem) (row : Nat) (export_dir : Str)
    (e : QueueRow) : ∀ ev ∈ (process_entry fs row export_dir e).2.1, event_row ev = row := by
  intro ev hev
  unfold process_entry at hev
  cases hge : get_export_path fs export_dir e.target with
  | error err => rw [hge] at hev; simp at hev; simp [hev, event_row]
  | ok val =>
    obtain ⟨fs1, up, bp⟩ := val
    rw [hge] at hev
    by_cases hex : path_exists fs1 up
    · simp only [hex, if_true] at hev
      simp at hev
      rcases hev with h | h <;> simp [h, event_row]
    · simp only [hex, if_false, Bool.false_eq_true] at hev
      cases hlk : fs1.files.lookup e.source with
      | none => rw [hlk] at hev; simp at hev; simp [hev, event_row]
      | some d =>
        rw [hlk] at hev; simp at hev
        rcases hev with h | h | h <;> simp [h, event_row]

theorem run_rows_event_rows_lt (export_dir : Str) (flag_at : Nat → Bool) (r : Nat)
    (hr : flag_at r = true) :
    ∀ (queue : List QueueRow) (fs : Filesystem) (row : Nat), row ≤ r →
      ∀ ev ∈ (run_rows export_dir flag_at fs row queue).2.1, event_row ev < r := by
  intro queue
  induction queue with
  | nil => intro fs row _ ev hev; simp [run_rows] at hev
  | cons e rest ih =>
    intro fs row hrow ev hev
    unfold run_rows at hev
    by_cases hflag : flag_at row = true
    · simp [hflag] at hev
    · have hlt : row < r := by
        rcases Nat.lt_or_ge row r with h | h
        · exact h
        · exact absurd (Nat.le_antisymm hrow h ▸ hr) hflag
      simp only [hflag, Bool.false_eq_true, if_false] at hev
      cases hpe : process_entry fs row export_dir e with
      | mk fs1 rest2 =>
        obtain ⟨evs, err⟩ := rest2
        rw [hpe] at hev
        cases err with
        | none =>
          simp at hev
          rcases hev with h | h
          · have := process_entry_event_rows fs row export_dir e ev (by rw [hpe]; exact h)
            omega
          · exact ih fs1 (row + 1) hlt ev h
        | some e2 =>
          simp at hev
          have := process_entry_event_rows fs row export_dir e ev (by rw [hpe]; exact hev)
          omega

/-- C7: the cancellation flag is read before each queue entry; if the flag
reads true at the check for entry `r`, no event of entry `r` or of any
later entry is ever produced by the batch — those entries are never
started. -/
theorem c7_cancellation_stops_batch (fs : Filesystem) (queue : List QueueRow) (dir : Str)
    (flag_at : Nat → Bool) (r : Nat) (hr : flag_at r = true) :
    ∀ ev ∈ (blur_videos fs queue (some dir) flag_at).events, event_row ev < r := by
  intro ev hev
  unfold blur_videos at hev
  by_cases h0 : queue.length = 0
  · simp [h0] at hev
  · simp only [h0, if_false] at hev
    by_cases hv : verify_export_directory fs dir = false
    · simp [hv] at hev
    · simp only [hv, if_false] at hev
      exact run_rows_event_rows_lt dir flag_at r hr queue fs 0 (Nat.zero_le r) ev hev

/-- Witness for C7: a flag that reads true immediately stops the batch
before row 0, so the produced event list satisfies the bound vacuously. -/
theorem c7_cancellation_stops_batch_witness :
    ((fun _ : Nat => true) 0 = true) ∧
    ∀ ev ∈ (blur_videos ⟨[], []⟩ [⟨['a'], ['b'], 0⟩] (some ['e'])
        (fun _ => true)).events, event_row ev < 0 :=
  ⟨rfl, c7_cancellation_stops_batch ⟨[], []⟩ [⟨['a'], ['b'], 0⟩] ['e'] (fun _ => true) 0 rfl⟩

/-! ## Claim C6: the untouched copy is guarded and idempotent -/

theorem source_ne_derived (dir r1 r2 : Str) :
    path_join dir source_data_t ++ r1 ≠ path_join dir derived_data_t ++ r2 := by
  intro h
  simp only [path_join, source_data_t, derived_data_t, List.append_assoc, List.cons_append,
    List.nil_append] at h
  have h2 := List.append_cancel_left h
  simp at h2

theorem lookup_write_file_ne (fs : Filesystem) (p q : Str) (d : FileData) (h : p ≠ q) :
    (write_file fs p d).files.lookup q = fs.files.lookup q := by
  have hb : (q == p) = false := beq_eq_false_iff_ne.mpr (Ne.symm h)
  simp [write_file, List.lookup, hb]

theorem get_export_path_ok_shape (fs : Filesystem) (dir t : Str) (fs1 : Filesystem)
    (up bp : Str) (h : get_export_path fs dir t = Except.ok (fs1, up, bp)) :
    fs1.files = fs.files ∧
      (∃ r1, up = path_join dir source_data_t ++ r1) ∧
      (∃ r2, bp = path_join dir derived_data_t ++ r2) := by
  unfold get_export_path at h
  cases hef : export_folders t with
  | none => rw [hef] at h; exact absurd h (by simp)
  | some trip =>
    obtain ⟨sf, ssf, off⟩ := trip
    rw [hef] at h
    simp only [Except.ok.injEq, Prod.mk.injEq] at h
    obtain ⟨hfs, hup, hbp⟩ := h
    refine ⟨?_, ?_, ?_⟩
    · rw [← hfs]; split_ifs <;> simp [makedirs]
    · exact ⟨['/'] ++ sf ++ ['/'] ++ ssf ++ ['/'] ++ off ++ ['/'] ++ pyReplace t blur_t unblur_t,
        by rw [← hup]; simp [path_join, List.append_assoc]⟩
    · exact ⟨['/'] ++ sf ++ ['/'] ++ ssf ++ ['/'] ++ off ++ ['/'] ++ t,
        by rw [← hbp]; simp [path_join, List.append_assoc]⟩

theorem process_entry_preserves_source_data (fs : Filesystem) (row : Nat) (dir : Str)
    (e : QueueRow) (p : Str) (d : FileData) (hud : under_source_data dir p)
    (hp : fs.files.lookup p = some d) :
    (process_entry fs row dir e).1.files.lookup p = some d := by
  unfold process_entry
  cases hge : get_export_path fs dir e.target with
  | error err => simpa using hp
  | ok val =>
    obtain ⟨fs1, up, bp⟩ := val
    obtain ⟨hfiles, ⟨r1, hup⟩, ⟨r2, hbp⟩⟩ := get_export_path_ok_shape fs dir e.target fs1 up bp hge
    obtain ⟨rp, hpshape⟩ := hud
    have hbp_ne : bp ≠ p := by
      intro hq
      rw [hbp, hpshape] at hq
      exact source_ne_derived dir rp r2 hq.symm
    have hp1 : fs1.files.lookup p = some d := by rw [hfiles]; exact hp
    by_cases hex : path_exists fs1 up
    · simp only [hex, if_true]
      cases hlk : fs1.files.lookup e.source with
      | some d2 =>
        simpa [lookup_write_file_ne _ _ _ _ hbp_ne] using hp1
      | none => simpa using hp1
    · simp only [hex, if_false, Bool.false_eq_true]
      cases hlk : fs1.files.lookup e.source with
      | none => simpa using hp1
      | some d2 =>
        have hup_ne : up ≠ p := by
          intro hq
          rw [hq] at hex
          exact hex (by simp [path_exists, hp1])
        have hp2 : (write_file fs1 up d2).files.lookup p = some d := by
          rw [lookup_write_file_ne _ _ _ _ hup_ne]; exact hp1
        simp only []
        cases hlk2 : (write_file fs1 up d2).files.lookup e.source with
        | none => simpa using hp2
        | some d3 =>
          simpa [lookup_write_file_ne _ _ _ _ hbp_ne] using hp2

theorem run_rows_preserves_source_data (dir : Str) (flag_at : Nat → Bool) (p : Str)
    (d : FileData) (hud : under_source_data dir p) :
    ∀ (queue : List QueueRow) (fs : Filesystem) (row : Nat),
      fs.files.lookup p = some d →
      (run_rows dir flag_at fs row queue).1.files.lookup p = some d := by
  intro queue
  induction queue with
  | nil => intro fs row hp; simpa [run_rows] using hp
  | cons e rest ih =>
    intro fs row hp
    unfold run_rows
    by_cases hflag : flag_at row = true
    · simpa [hflag] using hp
    · simp only [hflag, Bool.false_eq_true, if_false]
      have hpe := process_entry_preserves_source_data fs row dir e p d hud hp
      cases hproc : process_entry fs row dir e with
      | mk fs1 rst =>
        obtain ⟨evs, err⟩ := rst
        rw [hproc] at hpe
        cases err with
        | none => simpa using ih fs1 (row + 1) hpe
        | some e2 => simpa using hpe

/-- C6: (1) a file already present anywhere under the `source_data` tree of
the export root — the shape of every untouched-copy path — survives a whole
batch run with its contents (bytes and timestamps) intact; (2) within the
processing of one entry, if the untouched-copy path already exists the file
stored there is untouched and no copy is performed, and any copy that is
performed targets the untouched-copy path and only happens because that
path did not exist. -/
theorem c6_untouched_copy_idempotent :
    (∀ (fs : Filesystem) (queue : List QueueRow) (dir : Str) (flag_at : Nat → Bool)
        (p : Str) (d : FileData), under_source_data dir p →
        fs.files.lookup p = some d →
        (blur_videos fs queue (some dir) flag_at).fs.files.lookup p = some d) ∧
    (∀ (fs : Filesystem) (row : Nat) (dir : Str) (e : QueueRow) (fs1 : Filesystem)
        (up bp : Str), get_export_path fs dir e.target = Except.ok (fs1, up, bp) →
        (path_exists fs1 up = true →
          (process_entry fs row dir e).1.files.lookup up = fs.files.lookup up ∧
          ∀ s dst, Event.copy_file row s dst ∉ (process_entry fs row dir e).2.1) ∧
        (∀ s dst, Event.copy_file row s dst ∈ (process_entry fs row dir e).2.1 →
          dst = up ∧ path_exists fs1 up = false)) := by
  constructor
  · intro fs queue dir flag_at p d hud hp
    unfold blur_videos
    by_cases h0 : queue.length = 0
    · simpa [h0] using hp
    · simp only [h0, if_false]
      by_cases hv : verify_export_directory fs dir = false
      · simpa [hv] using hp
      · simp only [hv, if_false]
        exact run_rows_preserves_source_data dir flag_at p d hud queue fs 0 hp
  · intro fs row dir e fs1 up bp hge
    obtain ⟨hfiles, ⟨r1, hup⟩, ⟨r2, hbp⟩⟩ := get_export_path_ok_shape fs dir e.target fs1 up bp hge
    have hbp_ne : bp ≠ up := by
      intro hq
      rw [hbp, hup] at hq
      exact source_ne_derived dir r1 r2 hq.symm
    constructor
    · intro hex
      constructor
      · unfold process_entry
        rw [hge]
        simp only [hex, if_true]
        cases hlk : fs1.files.lookup e.source with
        | some d2 => simp [lookup_write_file_ne _ _ _ _ hbp_ne, hfiles]
        | none => simp [hfiles]
      · intro s dst
        unfold process_entry
        rw [hge]
        simp only [hex, if_true]
        cases hlk : fs1.files.lookup e.source with
        | some d2 => simp
        | none => simp
    · intro s dst hmem
      unfold process_entry at hmem
      rw [hge] at hmem
      by_cases hex : path_exists fs1 up
      · simp only [hex, if_true] at hmem
        simp at hmem
      · simp only [hex, if_false, Bool.false_eq_true] at hmem
        cases hlk : fs1.files.lookup e.source with
        | none => rw [hlk] at hmem; simp at hmem
        | some d2 =>
          rw [hlk] at hmem
          simp at hmem
          rcases hmem with ⟨hs, hdst⟩
          exact ⟨hdst, by simpa using hex⟩

/-- Witness for C6: a one-file filesystem whose file lies under
`source_data`, run through a full batch. -/
theorem c6_untouched_copy_idempotent_witness :
    under_source_data ['e'] (path_join ['e'] source_data_t ++ ['/', 'x']) ∧
    (Filesystem.mk [] [(path_join ['e'] source_data_t ++ ['/', 'x'], FileData.original 0)]).files.lookup
        (path_join ['e'] source_data_t ++ ['/', 'x']) = some (FileData.original 0) ∧
    (blur_videos ⟨[], [(path_join ['e'] source_data_t ++ ['/', 'x'], FileData.original 0)]⟩
        [⟨['s'], ['t'], 0⟩] (some ['e']) (fun _ => false)).fs.files.lookup
        (path_join ['e'] source_data_t ++ ['/', 'x']) = some (FileData.original 0) :=
  ⟨⟨['/', 'x'], rfl⟩, by decide,
    c6_untouched_copy_idempotent.1 ⟨[], [(path_join ['e'] source_data_t ++ ['/', 'x'],
        FileData.original 0)]⟩ [⟨['s'], ['t'], 0⟩] ['e'] (fun _ => false)
      (path_join ['e'] source_data_t ++ ['/', 'x']) (FileData.original 0)
      ⟨['/', 'x'], rfl⟩ (by decide)⟩

/-! ## String lemmas: occurrences and `replace` across separator blocks

The built filenames interleave fixed letter tokens with `'_'` separators
and digit blocks.  A pattern that contains neither a separator's characters
nor any digit can only occur inside one block, which the lemmas below
exploit. -/

theorem nil_isPrefixOf_eq_true (l : Str) : ([] : Str).isPrefixOf l = true := by
  cases l <;> rfl

theorem isPrefixOf_self_append : ∀ (l t : Str), l.isPrefixOf (l ++ t) = true
  | [], t => nil_isPrefixOf_eq_true t
  | c :: l, t => by simp [List.isPrefixOf, isPrefixOf_self_append l t]

theorem prefix_thru_sep (d : Str) (hdne : d ≠ []) :
    ∀ (pat : Str), (∀ c ∈ d, c ∉ pat) → ∀ (t v : Str),
      pat.isPrefixOf (t ++ (d ++ v)) = pat.isPrefixOf t := by
  intro pat
  induction pat with
  | nil => intro _ t v; rw [nil_isPrefixOf_eq_true, nil_isPrefixOf_eq_true]
  | cons p ps ih =>
    intro hd t v
    cases t with
    | nil =>
      cases d with
      | nil => exact absurd rfl hdne
      | cons c d' =>
        have hc : c ∉ p :: ps := hd c (List.mem_cons_self c d')
        have hpc : (p == c) = false := by
          refine beq_eq_false_iff_ne.mpr fun h => hc ?_
          rw [← h]; exact List.mem_cons_self p ps
        simp [List.isPrefixOf, hpc]
    | cons y t' =>
      have ih' := ih (fun c hc hmem => hd c hc (List.mem_cons_of_mem p hmem)) t' v
      simp [List.isPrefixOf, ih']

theorem countOccur_nil_of_ne (pat : Str) (hp : pat ≠ []) : countOccur pat [] = 0 := by
  cases pat with
  | nil => exact absurd rfl hp
  | cons p ps => simp [countOccur, List.isPrefixOf]

theorem countOccur_skip_sep (pat : Str) (hp : pat ≠ []) (d : Str) :
    (∀ c ∈ d, c ∉ pat) → ∀ (v : Str), countOccur pat (d ++ v) = countOccur pat v := by
  induction d with
  | nil => intro _ v; rfl
  | cons c d' ih =>
    intro hd v
    have hc : c ∉ pat := hd c (List.mem_cons_self c d')
    obtain ⟨p, ps, hpat⟩ : ∃ p ps, pat = p :: ps := by
      cases pat with
      | nil => exact absurd rfl hp
      | cons p ps => exact ⟨p, ps, rfl⟩
    subst hpat
    have hpc : (p == c) = false := by
      refine beq_eq_false_iff_ne.mpr fun h => hc ?_
      rw [← h]; exact List.mem_cons_self p ps
    have ih' := ih (fun c2 h2 => hd c2 (List.mem_cons_of_mem c h2)) v
    simp [countOccur, List.isPrefixOf, hpc, ih']

theorem countOccur_sep (pat : Str) (hp : pat ≠ []) (d : Str) (hdne : d ≠ [])
    (hd : ∀ c ∈ d, c ∉ pat) (u v : Str) :
    countOccur pat (u ++ (d ++ v)) = countOccur pat u + countOccur pat v := by
  induction u with
  | nil =>
    simp [countOccur_nil_of_ne pat hp, countOccur_skip_sep pat hp d hd v]
  | cons x u' ih =>
    have hpre := prefix_thru_sep d hdne pat hd (x :: u') v
    simp only [List.cons_append] at hpre ⊢
    simp only [countOccur, hpre, ih]
    omega

theorem containsSub_eq_false_iff (pat : Str) (s : Str) :
    containsSub pat s = false ↔ countOccur pat s = 0 := by
  induction s with
  | nil =>
    simp only [containsSub, countOccur]
    cases hp : pat.isPrefixOf [] <;> simp
  | cons x xs ih =>
    simp only [containsSub, countOccur]
    cases hp : pat.isPrefixOf (x :: xs) <;> simp [ih]

theorem containsSub_append_self (pat : Str) : ∀ (u v : Str),
    containsSub pat (u ++ (pat ++ v)) = true := by
  intro u
  induction u with
  | nil =>
    intro v
    cases pat with
    | nil => cases v <;> simp [containsSub, List.isPrefixOf]
    | cons p ps =>
      have hpre := isPrefixOf_self_append (p :: ps) v
      simp only [List.cons_append, List.nil_append] at hpre ⊢
      simp [containsSub, hpre]
  | cons x u' ih =>
    intro v
    simp only [List.cons_append, List.nil_append] at ih ⊢
    simp [containsSub, ih v]

theorem pyReplaceAux_congr (pat rep : Str) : ∀ (n : Nat) (s : Str), s.length ≤ n →
    ∀ (f1 f2 : Nat), s.length ≤ f1 → s.length ≤ f2 →
      pyReplaceAux pat rep f1 s = pyReplaceAux pat rep f2 s := by
  intro n
  induction n with
  | zero =>
    intro s hs f1 f2 _ _
    have hnil : s = [] := List.length_eq_zero.mp (Nat.le_zero.mp hs)
    subst hnil
    cases f1 <;> cases f2 <;> rfl
  | succ n ih =>
    intro s hs f1 f2 h1 h2
    cases s with
    | nil => cases f1 <;> cases f2 <;> rfl
    | cons x xs =>
      simp only [List.length_cons] at hs h1 h2
      cases f1 with
      | zero => omega
      | succ g1 =>
        cases f2 with
        | zero => omega
        | succ g2 =>
          simp only [pyReplaceAux]
          by_cases hc : pat ≠ [] ∧ pat.isPrefixOf (x :: xs) = true
          · rw [if_pos hc, if_pos hc]
            congr 1
            have hplen : 1 ≤ pat.length := by
              cases hpat : pat with
              | nil => exact absurd hpat hc.1
              | cons _ _ => simp
            have hdl : ((x :: xs).drop pat.length).length ≤ xs.length := by
              simp only [List.length_drop, List.length_cons]
              omega
            exact ih _ (by omega) g1 g2 (by omega) (by omega)
          · rw [if_neg hc, if_neg hc]
            congr 1
            exact ih xs (by omega) g1 g2 (by omega) (by omega)

theorem pyReplace_cons (pat rep : Str) (x : Char) (xs : Str) :
    pyReplace (x :: xs) pat rep =
      if pat ≠ [] ∧ pat.isPrefixOf (x :: xs) = true then
        rep ++ pyReplace ((x :: xs).drop pat.length) pat rep
      else x :: pyReplace xs pat rep := by
  show pyReplaceAux pat rep (xs.length + 1) (x :: xs) = _
  simp only [pyReplaceAux]
  by_cases hc : pat ≠ [] ∧ pat.isPrefixOf (x :: xs) = true
  · rw [if_pos hc, if_pos hc]
    congr 1
    have hplen : 1 ≤ pat.length := by
      cases hpat : pat with
      | nil => exact absurd hpat hc.1
      | cons _ _ => simp
    have hdl : ((x :: xs).drop pat.length).length ≤ xs.length := by
      simp only [List.length_drop, List.length_cons]
      omega
    exact pyReplaceAux_congr pat rep xs.length _ hdl xs.length _ hdl (le_refl _)
  · rw [if_neg hc, if_neg hc]
    rfl

theorem pyReplace_skip_sep (pat rep : Str) (hp : pat ≠ []) (d : Str) :
    (∀ c ∈ d, c ∉ pat) → ∀ (v : Str), pyReplace (d ++ v) pat rep = d ++ pyReplace v pat rep := by
  induction d with
  | nil => intro _ v; rfl
  | cons c d' ih =>
    intro hd v
    have hc : c ∉ pat := hd c (List.mem_cons_self c d')
    obtain ⟨p, ps, hpat⟩ : ∃ p ps, pat = p :: ps := by
      cases pat with
      | nil => exact absurd rfl hp
      | cons p ps => exact ⟨p, ps, rfl⟩
    subst hpat
    have hpc : (p == c) = false := by
      refine beq_eq_false_iff_ne.mpr fun h => hc ?_
      rw [← h]; exact List.mem_cons_self p ps
    have hnc : ¬ ((p :: ps) ≠ [] ∧ (p :: ps).isPrefixOf (c :: (d' ++ v)) = true) := by
      simp [List.isPrefixOf, hpc]
    rw [List.cons_append, pyReplace_cons, if_neg hnc,
      ih (fun c2 h2 => hd c2 (List.mem_cons_of_mem c h2)) v]
    simp

theorem pyReplace_thru_sep (pat rep : Str) (hp : pat ≠ []) (d : Str) (hdne : d ≠ [])
    (hd : ∀ c ∈ d, c ∉ pat) (u : Str) :
    containsSub pat u = false → ∀ (v : Str),
      pyReplace (u ++ (d ++ v)) pat rep = u ++ (d ++ pyReplace v pat rep) := by
  induction u with
  | nil => intro _ v; simpa using pyReplace_skip_sep pat rep hp d hd v
  | cons x u' ih =>
    intro hu v
    have hu2 : pat.isPrefixOf (x :: u') = false ∧ containsSub pat u' = false := by
      simpa [containsSub, Bool.or_eq_false_iff] using hu
    have hpre := prefix_thru_sep d hdne pat hd (x :: u') v
    simp only [List.cons_append] at hpre
    have hnc : ¬ (pat ≠ [] ∧ pat.isPrefixOf (x :: (u' ++ (d ++ v))) = true) := by
      rw [hpre, hu2.1]; simp
    rw [List.cons_append, pyReplace_cons, if_neg hnc, ih hu2.2 v]
    simp

/-! ## Digit facts about `nat_str` and `pad3` -/

theorem digitChar_isDigit : ∀ d < 10, (Nat.digitChar d).isDigit = true := by decide

theorem digitChar_inj : ∀ a < 10, ∀ b < 10, Nat.digitChar a = Nat.digitChar b → a = b := by
  decide

theorem pad3_decode (n : Nat) (h : n ≤ 999) :
    pad3 n = [Nat.digitChar (n / 100), Nat.digitChar (n / 10 % 10), Nat.digitChar (n % 10)] := by
  unfold pad3
  split_ifs with h1 h2
  · have e1 : n / 100 = 0 := by omega
    have e2 : n / 10 % 10 = 0 := by omega
    have e3 : n % 10 = n := by omega
    rw [e1, e2, e3]
    rfl
  · have e1 : n / 100 = 0 := by omega
    have e2 : n / 10 % 10 = n / 10 := by omega
    rw [e1, e2]
    rfl
  · rfl

theorem pad3_all_digit (n : Nat) (h : n ≤ 999) : ∀ c ∈ pad3 n, c.isDigit = true := by
  rw [pad3_decode n h]
  intro c hc
  simp only [List.mem_cons, List.not_mem_nil, or_false] at hc
  rcases hc with rfl | rfl | rfl <;> (apply digitChar_isDigit; omega)

theorem nat_str_all_digit (n : Nat) (h : n ≤ 999) : ∀ c ∈ nat_str n, c.isDigit = true := by
  unfold nat_str
  split_ifs with h1 h2 <;> intro c hc <;>
    simp only [List.mem_cons, List.not_mem_nil, or_false] at hc
  · subst hc; apply digitChar_isDigit; omega
  · rcases hc with rfl | rfl <;> (apply digitChar_isDigit; omega)
  · rcases hc with rfl | rfl | rfl <;> (apply digitChar_isDigit; omega)

theorem nat_str_ne_nil (n : Nat) : nat_str n ≠ [] := by
  unfold nat_str; split_ifs <;> simp

theorem pad3_ne_nil (n : Nat) : pad3 n ≠ [] := by
  unfold pad3; split_ifs <;> simp

theorem pad3_length (n : Nat) : (pad3 n).length = 3 := by
  unfold pad3; split_ifs <;> rfl


theorem pad3_inj (m n : Nat) (hm : m ≤ 999) (hn : n ≤ 999) (h : pad3 m = pad3 n) : m = n := by
  rw [pad3_decode m hm, pad3_decode n hn] at h
  simp only [List.cons.injEq, and_true] at h
  obtain ⟨h1, h2, h3⟩ := h
  have g1 := digitChar_inj _ (by omega) _ (by omega) h1
  have g2 := digitChar_inj _ (by omega) _ (by omega) h2
  have g3 := digitChar_inj _ (by omega) _ (by omega) h3
  omega

theorem no_digit_disjoint (pat : Str) (hpat : ∀ c ∈ pat, c.isDigit = false) (d : Str)
    (hd : ∀ c ∈ d, c.isDigit = true) : ∀ c ∈ d, c ∉ pat := by
  intro c hc hmem
  have h1 := hpat c hmem
  have h2 := hd c hc
  rw [h1] at h2
  exact Bool.false_ne_true h2

/-! ## Claim C4: injectivity of the builder in subject / session / medication -/

theorem build_components_inj (S F : Str) (a b : Nat) (ha : a ≤ 999) (hb : b ≤ 999)
    (x x' : SessionId) (y y' : MedicationStatus) (R : Str)
    (h : S ++ (sub_t ++ (pad3 a ++ ('_' :: (F ++ ('_' :: (session_text x ++
          ('_' :: (medication_text y ++ ('_' :: R))))))))) =
        S ++ (sub_t ++ (pad3 b ++ ('_' :: (F ++ ('_' :: (session_text x' ++
          ('_' :: (medication_text y' ++ ('_' :: R)))))))))) :
    a = b ∧ x = x' ∧ y = y' := by
  have h1 := List.append_cancel_left h
  have h2 := List.append_cancel_left h1
  obtain ⟨hpad, h3⟩ := List.append_inj h2 (by rw [pad3_length, pad3_length])
  have hab : a = b := pad3_inj a b ha hb hpad
  injection h3 with _ h4
  have h5 := List.append_cancel_left h4
  injection h5 with _ h6
  obtain ⟨hses, h7⟩ := List.append_inj h6 (by cases x <;> cases x' <;> rfl)
  have hxx : x = x' := by cases x <;> cases x' <;> revert hses <;> decide
  injection h7 with _ h8
  have hyy : y = y' := by
    cases y <;> cases y' <;> first
      | rfl
      | (exfalso; simp [medication_text] at h8)
  exact ⟨hab, hxx, hyy⟩

/-- C4: two valid field values agreeing on site, freezer status, trial,
retry and plane but differing in subject id, session id or medication
status never produce the same filename. -/
theorem c4_build_filename_injective (f g : FilenameFields) (hf : ValidFields f)
    (hg : ValidFields g) (hsite : f.site_id = g.site_id)
    (hfreezer : f.freezer_status = g.freezer_status) (htrial : f.trial_id = g.trial_id)
    (hretry : f.retry = g.retry) (hplane : f.video_plane = g.video_plane)
    (hdiff : f.subject_id ≠ g.subject_id ∨ f.session_id ≠ g.session_id ∨
      f.medication_status ≠ g.medication_status) :
    build_filename f ≠ build_filename g := by
  intro heq
  unfold build_filename at heq
  rw [hsite, hfreezer, htrial, hretry, hplane] at heq
  by_cases h0 : g.retry = 0
  · rw [if_pos h0, if_pos h0] at heq
    simp only [List.append_assoc, List.cons_append, List.nil_append] at heq
    obtain ⟨hab, hxx, hyy⟩ :=
      build_components_inj _ _ _ _ hf.1 hg.1 _ _ _ _ _ heq
    rcases hdiff with hd | hd | hd <;> exact hd (by assumption)
  · rw [if_neg h0, if_neg h0] at heq
    simp only [List.append_assoc, List.cons_append, List.nil_append] at heq
    obtain ⟨hab, hxx, hyy⟩ :=
      build_components_inj _ _ _ _ hf.1 hg.1 _ _ _ _ _ heq
    rcases hdiff with hd | hd | hd <;> exact hd (by assumption)

/-- Witness for C4: two valid field values differing only in subject id. -/
theorem c4_build_filename_injective_witness :
    ValidFields ⟨.c1, 1, .fr, .ses01, .on, .stwalk, 0, .front⟩ ∧
    ValidFields ⟨.c1, 2, .fr, .ses01, .on, .stwalk, 0, .front⟩ ∧
    build_filename ⟨.c1, 1, .fr, .ses01, .on, .stwalk, 0, .front⟩ ≠
      build_filename ⟨.c1, 2, .fr, .ses01, .on, .stwalk, 0, .front⟩ :=
  ⟨by decide, by decide,
    c4_build_filename_injective _ _ (by decide) (by decide) rfl rfl rfl rfl rfl
      (Or.inl (by decide))⟩

/-! ## Decomposition of built filenames into letter segments -/

theorem build_eq_assemble (f : FilenameFields) : build_filename f = assemble f blur_rest := by
  by_cases h0 : f.retry = 0 <;>
    simp [build_filename, assemble, h0, blur_tail, blur_rest, List.append_assoc]

theorem countOccur_assemble (pat : Str) (hp : pat ≠ [])
    (hpd : ∀ c ∈ pat, c.isDigit = false) (hus : ('_' : Char) ∉ pat)
    (f : FilenameFields) (hf : ValidFields f) (w : Str) :
    countOccur pat (assemble f w) =
      countOccur pat (site_token f.site_id ++ sub_t) +
        (countOccur pat (freezer_text f.freezer_status) +
          (countOccur pat (session_text f.session_id) +
            (countOccur pat (medication_text f.medication_status) +
              ((if f.retry = 0 then countOccur pat (trial_text f.trial_id)
                else countOccur pat (trial_text f.trial_id ++ retr_t)) +
                (countOccur pat (plane_text f.video_plane) + countOccur pat w))))) := by
  have hd_pad : ∀ c ∈ pad3 f.subject_id, c ∉ pat :=
    no_digit_disjoint pat hpd _ (pad3_all_digit _ hf.1)
  have hd_nat : ∀ c ∈ nat_str f.retry, c ∉ pat :=
    no_digit_disjoint pat hpd _ (nat_str_all_digit _ hf.2)
  have hd_us : ∀ c ∈ ['_'], c ∉ pat := by
    intro c hc
    simp at hc
    subst hc
    exact hus
  by_cases h0 : f.retry = 0
  · have e1 : assemble f w =
        (site_token f.site_id ++ sub_t) ++ (pad3 f.subject_id ++ (['_'] ++
          (freezer_text f.freezer_status ++ (['_'] ++ (session_text f.session_id ++ (['_'] ++
            (medication_text f.medication_status ++ (['_'] ++ (trial_text f.trial_id ++ (['_'] ++
              (plane_text f.video_plane ++ (['_'] ++ w)))))))))))) := by
      simp [assemble, h0, List.append_assoc]
    rw [e1, countOccur_sep pat hp _ (pad3_ne_nil _) hd_pad,
      countOccur_skip_sep pat hp ['_'] hd_us,
      countOccur_sep pat hp ['_'] (by simp) hd_us,
      countOccur_sep pat hp ['_'] (by simp) hd_us,
      countOccur_sep pat hp ['_'] (by simp) hd_us,
      countOccur_sep pat hp ['_'] (by simp) hd_us,
      countOccur_sep pat hp ['_'] (by simp) hd_us,
      if_pos h0]
  · have e1 : assemble f w =
        (site_token f.site_id ++ sub_t) ++ (pad3 f.subject_id ++ (['_'] ++
          (freezer_text f.freezer_status ++ (['_'] ++ (session_text f.session_id ++ (['_'] ++
            (medication_text f.medication_status ++ (['_'] ++
              ((trial_text f.trial_id ++ retr_t) ++ (nat_str f.retry ++ (['_'] ++
                (plane_text f.video_plane ++ (['_'] ++ w))))))))))))) := by
      simp [assemble, h0, List.append_assoc]
    rw [e1, countOccur_sep pat hp _ (pad3_ne_nil _) hd_pad,
      countOccur_skip_sep pat hp ['_'] hd_us,
      countOccur_sep pat hp ['_'] (by simp) hd_us,
      countOccur_sep pat hp ['_'] (by simp) hd_us,
      countOccur_sep pat hp ['_'] (by simp) hd_us,
      countOccur_sep pat hp _ (nat_str_ne_nil _) hd_nat,
      countOccur_skip_sep pat hp ['_'] hd_us,
      countOccur_sep pat hp ['_'] (by simp) hd_us,
      if_neg h0]

theorem pyReplace_assemble (pat rep : Str) (hp : pat ≠ [])
    (hpd : ∀ c ∈ pat, c.isDigit = false) (hus : ('_' : Char) ∉ pat)
    (f : FilenameFields) (hf : ValidFields f) (w : Str)
    (hs_site : containsSub pat (site_token f.site_id ++ sub_t) = false)
    (hs_fr : containsSub pat (freezer_text f.freezer_status) = false)
    (hs_ses : containsSub pat (session_text f.session_id) = false)
    (hs_med : containsSub pat (medication_text f.medication_status) = false)
    (hs_tr0 : containsSub pat (trial_text f.trial_id) = false)
    (hs_trr : containsSub pat (trial_text f.trial_id ++ retr_t) = false)
    (hs_pl : containsSub pat (plane_text f.video_plane) = false) :
    pyReplace (assemble f w) pat rep = assemble f (pyReplace w pat rep) := by
  have hd_pad : ∀ c ∈ pad3 f.subject_id, c ∉ pat :=
    no_digit_disjoint pat hpd _ (pad3_all_digit _ hf.1)
  have hd_nat : ∀ c ∈ nat_str f.retry, c ∉ pat :=
    no_digit_disjoint pat hpd _ (nat_str_all_digit _ hf.2)
  have hd_us : ∀ c ∈ ['_'], c ∉ pat := by
    intro c hc
    simp at hc
    subst hc
    exact hus
  by_cases h0 : f.retry = 0
  · have e1 : assemble f w =
        (site_token f.site_id ++ sub_t) ++ (pad3 f.subject_id ++ (['_'] ++
          (freezer_text f.freezer_status ++ (['_'] ++ (session_text f.session_id ++ (['_'] ++
            (medication_text f.medication_status ++ (['_'] ++ (trial_text f.trial_id ++ (['_'] ++
              (plane_text f.video_plane ++ (['_'] ++ w)))))))))))) := by
      simp [assemble, h0, List.append_assoc]
    rw [e1, pyReplace_thru_sep pat rep hp _ (pad3_ne_nil _) hd_pad _ hs_site,
      pyReplace_skip_sep pat rep hp ['_'] hd_us,
      pyReplace_thru_sep pat rep hp ['_'] (by simp) hd_us _ hs_fr,
      pyReplace_thru_sep pat rep hp ['_'] (by simp) hd_us _ hs_ses,
      pyReplace_thru_sep pat rep hp ['_'] (by simp) hd_us _ hs_med,
      pyReplace_thru_sep pat rep hp ['_'] (by simp) hd_us _ hs_tr0,
      pyReplace_thru_sep pat rep hp ['_'] (by simp) hd_us _ hs_pl]
    simp [assemble, h0, List.append_assoc]
  · have e1 : assemble f w =
        (site_token f.site_id ++ sub_t) ++ (pad3 f.subject_id ++ (['_'] ++
          (freezer_text f.freezer_status ++ (['_'] ++ (session_text f.session_id ++ (['_'] ++
            (medication_text f.medication_status ++ (['_'] ++
              ((trial_text f.trial_id ++ retr_t) ++ (nat_str f.retry ++ (['_'] ++
                (plane_text f.video_plane ++ (['_'] ++ w))))))))))))) := by
      simp [assemble, h0, List.append_assoc]
    rw [e1, pyReplace_thru_sep pat rep hp _ (pad3_ne_nil _) hd_pad _ hs_site,
      pyReplace_skip_sep pat rep hp ['_'] hd_us,
      pyReplace_thru_sep pat rep hp ['_'] (by simp) hd_us _ hs_fr,
      pyReplace_thru_sep pat rep hp ['_'] (by simp) hd_us _ hs_ses,
      pyReplace_thru_sep pat rep hp ['_'] (by simp) hd_us _ hs_med,
      pyReplace_thru_sep pat rep hp _ (nat_str_ne_nil _) hd_nat _ hs_trr,
      pyReplace_skip_sep pat rep hp ['_'] hd_us,
      pyReplace_thru_sep pat rep hp ['_'] (by simp) hd_us _ hs_pl]
    simp [assemble, h0, List.append_assoc]

/-! ## Claim C5: the retry token -/

/-- C5: a valid field value with `retry = 0` yields a filename with no
occurrence of the retry marker `"-retr"`; with `retry > 0` the filename
contains exactly one occurrence, and that occurrence is followed by the
decimal rendering of `retry` and the closing `"_"`. -/
theorem c5_retry_token (f : FilenameFields) (hf : ValidFields f) :
    (f.retry = 0 → countOccur retr_t (build_filename f) = 0) ∧
    (0 < f.retry → countOccur retr_t (build_filename f) = 1 ∧
      containsSub (retr_t ++ nat_str f.retry ++ ['_']) (build_filename f) = true) := by
  have hcnt := countOccur_assemble retr_t (by decide) (by decide) (by decide) f hf blur_rest
  rw [← build_eq_assemble] at hcnt
  have h1 : countOccur retr_t (site_token f.site_id ++ sub_t) = 0 := by
    cases f.site_id <;> decide
  have h2 : countOccur retr_t (freezer_text f.freezer_status) = 0 := by
    cases f.freezer_status <;> decide
  have h3 : countOccur retr_t (session_text f.session_id) = 0 := by
    cases f.session_id <;> decide
  have h4 : countOccur retr_t (medication_text f.medication_status) = 0 := by
    cases f.medication_status <;> decide
  have h6 : countOccur retr_t (plane_text f.video_plane) = 0 := by
    cases f.video_plane <;> decide
  have h7 : countOccur retr_t blur_rest = 0 := by decide
  constructor
  · intro h0
    have h5 : countOccur retr_t (trial_text f.trial_id) = 0 := by
      cases f.trial_id <;> decide
    rw [hcnt, if_pos h0, h1, h2, h3, h4, h5, h6, h7]
  · intro hpos
    have h0 : ¬ f.retry = 0 := by omega
    constructor
    · have h5 : countOccur retr_t (trial_text f.trial_id ++ retr_t) = 1 := by
        cases f.trial_id <;> decide
      rw [hcnt, if_neg h0, h1, h2, h3, h4, h5, h6, h7]
    · have e2 : build_filename f =
          (site_token f.site_id ++ sub_t ++ pad3 f.subject_id ++ ['_'] ++
            freezer_text f.freezer_status ++ ['_'] ++ session_text f.session_id ++ ['_'] ++
            medication_text f.medication_status ++ ['_'] ++ trial_text f.trial_id) ++
          ((retr_t ++ nat_str f.retry ++ ['_']) ++
            (plane_text f.video_plane ++ blur_tail)) := by
        simp [build_filename, h0, List.append_assoc]
      rw [e2]
      exact containsSub_append_self _ _ _

/-- Witness for C5 at a concrete field value with `retry = 3`. -/
theorem c5_retry_token_witness :
    ValidFields ⟨.c1, 1, .fr, .ses01, .on, .stwalk, 3, .front⟩ ∧
    (((⟨.c1, 1, .fr, .ses01, .on, .stwalk, 3, .front⟩ : FilenameFields).retry = 0 →
        countOccur retr_t (build_filename ⟨.c1, 1, .fr, .ses01, .on, .stwalk, 3, .front⟩) = 0) ∧
      (0 < (⟨.c1, 1, .fr, .ses01, .on, .stwalk, 3, .front⟩ : FilenameFields).retry →
        countOccur retr_t (build_filename ⟨.c1, 1, .fr, .ses01, .on, .stwalk, 3, .front⟩) = 1 ∧
        containsSub (retr_t ++
            nat_str (⟨.c1, 1, .fr, .ses01, .on, .stwalk, 3, .front⟩ : FilenameFields).retry
            ++ ['_'])
          (build_filename ⟨.c1, 1, .fr, .ses01, .on, .stwalk, 3, .front⟩) = true)) :=
  ⟨by decide, c5_retry_token ⟨.c1, 1, .fr, .ses01, .on, .stwalk, 3, .front⟩ (by decide)⟩

/-! ## Claim C8: the `"blur"` token and the `"unblur"` substitution -/

/-- C8: every built filename contains the fixed token `"blur"`, in exactly
one position; replacing `"blur"` by `"unblur"` (the unredacted-name
derivation of `_get_export_path`) and substituting back restores the
original filename; and no field-derived token of the filename contains
`"blur"`, so the substitution touches only the final token. -/
theorem c8_blur_token_substitution (f : FilenameFields) (hf : ValidFields f) :
    containsSub blur_t (build_filename f) = true ∧
    countOccur blur_t (build_filename f) = 1 ∧
    pyReplace (pyReplace (build_filename f) blur_t unblur_t) unblur_t blur_t =
      build_filename f ∧
    (∀ t ∈ field_tokens f, containsSub blur_t t = false) := by
  refine ⟨?_, ?_, ?_, ?_⟩
  · have e : build_filename f =
        (site_token f.site_id ++ sub_t ++ pad3 f.subject_id ++ ['_'] ++
          freezer_text f.freezer_status ++ ['_'] ++ session_text f.session_id ++ ['_'] ++
          medication_text f.medication_status ++ ['_'] ++
          (if f.retry = 0 then trial_text f.trial_id
           else trial_text f.trial_id ++ retr_t ++ nat_str f.retry) ++ ['_'] ++
          plane_text f.video_plane ++ ['_']) ++
        (blur_t ++ ['.', 'm', 'p', '4']) := by
      by_cases h0 : f.retry = 0 <;>
        simp [build_filename, h0, blur_tail, blur_t, List.append_assoc]
    rw [e]
    exact containsSub_append_self _ _ _
  · have hcnt := countOccur_assemble blur_t (by decide) (by decide) (by decide) f hf blur_rest
    rw [← build_eq_assemble] at hcnt
    have h1 : countOccur blur_t (site_token f.site_id ++ sub_t) = 0 := by
      cases f.site_id <;> decide
    have h2 : countOccur blur_t (freezer_text f.freezer_status) = 0 := by
      cases f.freezer_status <;> decide
    have h3 : countOccur blur_t (session_text f.session_id) = 0 := by
      cases f.session_id <;> decide
    have h4 : countOccur blur_t (medication_text f.medication_status) = 0 := by
      cases f.medication_status <;> decide
    have h6 : countOccur blur_t (plane_text f.video_plane) = 0 := by
      cases f.video_plane <;> decide
    have h7 : countOccur blur_t blur_rest = 1 := by decide
    by_cases h0 : f.retry = 0
    · have h5 : countOccur blur_t (trial_text f.trial_id) = 0 := by
        cases f.trial_id <;> decide
      rw [hcnt, if_pos h0, h1, h2, h3, h4, h5, h6, h7]
    · have h5 : countOccur blur_t (trial_text f.trial_id ++ retr_t) = 0 := by
        cases f.trial_id <;> decide
      rw [hcnt, if_neg h0, h1, h2, h3, h4, h5, h6, h7]
  · have hb := build_eq_assemble f
    have hsB1 : containsSub blur_t (site_token f.site_id ++ sub_t) = false := by
      cases f.site_id <;> decide
    have hsB2 : containsSub blur_t (freezer_text f.freezer_status) = false := by
      cases f.freezer_status <;> decide
    have hsB3 : containsSub blur_t (session_text f.session_id) = false := by
      cases f.session_id <;> decide
    have hsB4 : containsSub blur_t (medication_text f.medication_status) = false := by
      cases f.medication_status <;> decide
    have hsB5 : containsSub blur_t (trial_text f.trial_id) = false := by
      cases f.trial_id <;> decide
    have hsB6 : containsSub blur_t (trial_text f.trial_id ++ retr_t) = false := by
      cases f.trial_id <;> decide
    have hsB7 : containsSub blur_t (plane_text f.video_plane) = false := by
      cases f.video_plane <;> decide
    have hsU1 : containsSub unblur_t (site_token f.site_id ++ sub_t) = false := by
      cases f.site_id <;> decide
    have hsU2 : containsSub unblur_t (freezer_text f.freezer_status) = false := by
      cases f.freezer_status <;> decide
    have hsU3 : containsSub unblur_t (session_text f.session_id) = false := by
      cases f.session_id <;> decide
    have hsU4 : containsSub unblur_t (medication_text f.medication_status) = false := by
      cases f.medication_status <;> decide
    have hsU5 : containsSub unblur_t (trial_text f.trial_id) = false := by
      cases f.trial_id <;> decide
    have hsU6 : containsSub unblur_t (trial_text f.trial_id ++ retr_t) = false := by
      cases f.trial_id <;> decide
    have hsU7 : containsSub unblur_t (plane_text f.video_plane) = false := by
      cases f.video_plane <;> decide
    have r1 : pyReplace (build_filename f) blur_t unblur_t =
        assemble f (pyReplace blur_rest blur_t unblur_t) := by
      rw [hb]
      exact pyReplace_assemble blur_t unblur_t (by decide) (by decide) (by decide) f hf
        blur_rest hsB1 hsB2 hsB3 hsB4 hsB5 hsB6 hsB7
    have c1 : pyReplace blur_rest blur_t unblur_t =
        ['u', 'n', 'b', 'l', 'u', 'r', '.', 'm', 'p', '4'] := by decide
    have r2 : pyReplace (assemble f ['u', 'n', 'b', 'l', 'u', 'r', '.', 'm', 'p', '4'])
        unblur_t blur_t =
        assemble f (pyReplace ['u', 'n', 'b', 'l', 'u', 'r', '.', 'm', 'p', '4']
          unblur_t blur_t) :=
      pyReplace_assemble unblur_t blur_t (by decide) (by decide) (by decide) f hf
        _ hsU1 hsU2 hsU3 hsU4 hsU5 hsU6 hsU7
    have c2 : pyReplace ['u', 'n', 'b', 'l', 'u', 'r', '.', 'm', 'p', '4'] unblur_t blur_t =
        blur_rest := by decide
    rw [r1, c1, r2, c2, ← hb]
  · intro t ht
    unfold field_tokens at ht
    rcases List.mem_append.mp ht with ht | ht
    · by_cases hsite : f.site_id = SiteId.rochester
      · rw [if_pos hsite] at ht
        simp at ht
      · rw [if_neg hsite] at ht
        simp at ht
        subst ht
        cases f.site_id <;> decide
    · simp only [List.mem_cons, List.not_mem_nil, or_false] at ht
      rcases ht with rfl | rfl | rfl | rfl | rfl | rfl
      · rw [containsSub_eq_false_iff]
        have e : sub_t ++ pad3 f.subject_id = sub_t ++ (pad3 f.subject_id ++ []) := by simp
        rw [e, countOccur_sep blur_t (by decide) _ (pad3_ne_nil _)
          (no_digit_disjoint _ (by decide) _ (pad3_all_digit _ hf.1))]
        decide
      · cases f.freezer_status <;> decide
      · cases f.session_id <;> decide
      · cases f.medication_status <;> decide
      · by_cases h0 : f.retry = 0
        · rw [if_pos h0]
          cases f.trial_id <;> decide
        · rw [if_neg h0, containsSub_eq_false_iff]
          have e : trial_text f.trial_id ++ retr_t ++ nat_str f.retry =
              (trial_text f.trial_id ++ retr_t) ++ (nat_str f.retry ++ []) := by simp
          rw [e, countOccur_sep blur_t (by decide) _ (nat_str_ne_nil _)
            (no_digit_disjoint _ (by decide) _ (nat_str_all_digit _ hf.2))]
          have h5 : countOccur blur_t (trial_text f.trial_id ++ retr_t) = 0 := by
            cases f.trial_id <;> decide
          rw [h5]
          decide
      · cases f.video_plane <;> decide

/-- Witness for C8 at a concrete field value. -/
theorem c8_blur_token_substitution_witness :
    ValidFields ⟨.c2, 7, .nf, .ses02, .off, .dtwalk, 0, .sagit⟩ ∧
    (containsSub blur_t (build_filename ⟨.c2, 7, .nf, .ses02, .off, .dtwalk, 0, .sagit⟩) = true ∧
      countOccur blur_t (build_filename ⟨.c2, 7, .nf, .ses02, .off, .dtwalk, 0, .sagit⟩) = 1 ∧
      pyReplace (pyReplace (build_filename ⟨.c2, 7, .nf, .ses02, .off, .dtwalk, 0, .sagit⟩)
          blur_t unblur_t) unblur_t blur_t =
        build_filename ⟨.c2, 7, .nf, .ses02, .off, .dtwalk, 0, .sagit⟩ ∧
      (∀ t ∈ field_tokens ⟨.c2, 7, .nf, .ses02, .off, .dtwalk, 0, .sagit⟩,
        containsSub blur_t t = false)) :=
  ⟨by decide, c8_blur_token_substitution ⟨.c2, 7, .nf, .ses02, .off, .dtwalk, 0, .sagit⟩
    (by decide)⟩

/-! ## Claim C1: the build → parse round trip across sites -/

/-- C1 (failing input): for the site whose token is rendered empty
(`"Rochester"`), the built filename has one token fewer in front, so
`_get_export_path`'s split-based parse shifts: the reconstructed
subject-group is `"sub001_FR_ses01"` (absorbing the session token), the
"session" folder comes out as `"on"` — the medication token, not
`session_text ses01` — and the "medication" folder comes out as
`"stwalk"` — the trial token.  The same fields under site `"C1"` parse
back correctly, which shows the round trip breaks exactly at the
empty-token site. -/
theorem c1_rochester_roundtrip_fails :
    export_folders (build_filename ⟨.rochester, 1, .fr, .ses01, .on, .stwalk, 0, .front⟩) =
      some (['s', 'u', 'b', '0', '0', '1', '_', 'F', 'R', '_', 's', 'e', 's', '0', '1'],
        ['o', 'n'], ['s', 't', 'w', 'a', 'l', 'k']) ∧
    ['o', 'n'] ≠
      session_text (⟨.rochester, 1, .fr, .ses01, .on, .stwalk, 0, .front⟩ :
        FilenameFields).session_id ∧
    ['s', 't', 'w', 'a', 'l', 'k'] ≠
      medication_text (⟨.rochester, 1, .fr, .ses01, .on, .stwalk, 0, .front⟩ :
        FilenameFields).medication_status ∧
    export_folders (build_filename ⟨.c1, 1, .fr, .ses01, .on, .stwalk, 0, .front⟩) =
      some (['C', '1', '_', 's', 'u', 'b', '0', '0', '1', '_', 'F', 'R'],
        session_text SessionId.ses01, medication_text MedicationStatus.on) := by
  decide
